import Mathlib

/-!
# Verification of the thematic-analysis subsystem

Shallow embedding of `src/thematic_analyzer.py` (class `ThematicAnalyzer`):
keyword extraction, theme matching, cluster supplementation, per-review
classification and per-group aggregation.

Modelling conventions:
* Python dicts become insertion-ordered association lists `List (String × α)`;
  `dinsert` mirrors `d[k] = v` (update in place, append if fresh).
* Review texts are `Option String` (`none` models a pandas `NaN`).
* Scores are rationals `ℚ` (the code uses floats; all claim-relevant
  comparisons are exact).
* The numeric internals of third-party components — sklearn's TF-IDF score
  values, spaCy's tagger/lemmatizer output, and the K-means label assignment —
  are oracle parameters (`Oracles`).  Everything decidable from the source is
  embedded concretely, in particular sklearn's tokenizer, stop-word removal,
  n-gram construction and document-frequency pruning (which decides whether
  the vectorizer raises `empty vocabulary / no terms remain`), the score
  combination and frequency filter, the matcher, the cluster grouping, the
  classifier and the aggregation.
-/

namespace ThematicAnalyzer

/-- ASCII lower-casing of a character, as Python `str.lower` acts on the
ASCII texts in scope. -/
def lowerChar (c : Char) : Char :=
  if 65 ≤ c.toNat ∧ c.toNat ≤ 90 then Char.ofNat (c.toNat + 32) else c

/-- `s.lower()`. -/
def strLower (s : String) : String := ⟨s.data.map lowerChar⟩

/-- `a` starts `b` (character lists). -/
def startsList : List Char → List Char → Bool
  | [], _ => true
  | _ :: _, [] => false
  | x :: xs, y :: ys => x == y && startsList xs ys

/-- `a` is a contiguous substring of `b` (character lists). -/
def containsSub (a : List Char) : List Char → Bool
  | [] => a.isEmpty
  | y :: ys => startsList a (y :: ys) || containsSub a ys

/-- Python `a in b` for strings (case-sensitive contiguous substring). -/
def isSub (a b : String) : Bool := containsSub a.data b.data

/-- Exact rational division of two naturals, `m / n` (used for Python's true
division of non-negative quantities; the code's float arithmetic is modelled
exactly over `ℚ`).  `mkRat` keeps every score kernel-computable. -/
def qdiv (m n : Nat) : ℚ := mkRat m n

/-- Exact arithmetic mean `(a + b) / 2` of two rationals, in kernel-computable
form (see `qavg_eq` below for the bridge to `/`). -/
def qavg (a b : ℚ) : ℚ := mkRat (a.num * (b.den : Int) + b.num * (a.den : Int)) (2 * (a.den * b.den))

/-!
## Insertion-ordered dictionaries

Python dicts are modelled as association lists in insertion order:
`d[k] = v` updates the value in place when the key exists (keeping its
position) and appends otherwise.
-/

/-- Key list of an association list. -/
def akeys {α : Type} (m : List (String × α)) : List String := m.map (fun p => p.1)

/-- First-match lookup, Python `d[k]` / `k in d`. -/
def alookup {α : Type} : List (String × α) → String → Option α
  | [], _ => none
  | p :: rest, k => if p.1 == k then some p.2 else alookup rest k

/-- Python `d[k] = v`: update in place when present, append when fresh. -/
def dinsert {α : Type} (m : List (String × α)) (k : String) (v : α) : List (String × α) :=
  if m.any (fun p => p.1 == k) then m.map (fun p => if p.1 == k then (p.1, v) else p)
  else m ++ [(k, v)]

/-- `Counter[k] += 1` on an insertion-ordered counter. -/
def bump (m : List (String × Nat)) (k : String) : List (String × Nat) :=
  if m.any (fun p => p.1 == k) then m.map (fun p => if p.1 == k then (p.1, p.2 + 1) else p)
  else m ++ [(k, 1)]

/-- First-appearance deduplication (pandas `Series.unique`). -/
def uniqFirst {α : Type} [BEq α] (l : List α) : List α :=
  l.foldl (fun acc b => if acc.contains b then acc else acc ++ [b]) []

/-!
## Stable descending sort by score

Python's `list.sort(key=lambda x: x[1], reverse=True)` and
`sorted(..., key=lambda x: x[1], reverse=True)` are stable descending sorts
by the score component: elements with equal scores keep their relative
order.  Insertion sort where a new element is placed after all elements of
score `≥` its own realises exactly that specification.
-/

/-- Insert `x` into a descending-sorted list, after all entries whose score
is `≥ x`'s score (stability). -/
def insertDesc {α : Type} (x : α × ℚ) : List (α × ℚ) → List (α × ℚ)
  | [] => [x]
  | y :: ys => if y.2 < x.2 then x :: y :: ys else y :: insertDesc x ys

/-- Stable sort, descending by score. -/
def sortDesc {α : Type} (l : List (α × ℚ)) : List (α × ℚ) :=
  l.foldl (fun acc x => insertDesc x acc) []

/-!
## The theme catalog

`self.theme_keywords` from `ThematicAnalyzer.__init__`, verbatim, in
insertion order.
-/

/-- The fixed banking theme catalog (7 themes with their seed keywords). -/
def theme_keywords : List (String × List String) :=
  [ (("Account Access Problems"),
     [("login"), ("password"), ("account"), ("access"), ("unable"), ("cannot"), ("failed"),
      ("error"), ("otp"), ("verification"), ("authenticate"), ("locked"), ("blocked"),
      ("open account"), ("register"), ("sign up"), ("selfie"), ("verify")])
  , (("Transaction Speed & Reliability"),
     [("slow"), ("fast"), ("speed"), ("transaction"), ("transfer"), ("payment"),
      ("delay"), ("pending"), ("timeout"), ("failed transaction"), ("processing"),
      ("instant"), ("quick"), ("waiting"), ("hang"), ("freeze"), ("stuck")])
  , (("User Interface & Experience"),
     [("ui"), ("interface"), ("design"), ("user friendly"), ("easy"), ("simple"),
      ("beautiful"), ("ugly"), ("confusing"), ("layout"), ("navigation"), ("button"),
      ("screen"), ("display"), ("visual"), ("aesthetic"), ("intuitive")])
  , (("Customer Support Responsiveness"),
     [("support"), ("customer service"), ("help"), ("response"), ("reply"),
      ("contact"), ("assistance"), ("complaint"), ("no reply"), ("unresponsive"),
      ("email"), ("call"), ("service"), ("helpful"), ("ignore")])
  , (("Feature Requests"),
     [("feature"), ("add"), ("missing"), ("need"), ("want"), ("should have"),
      ("request"), ("suggestion"), ("improve"), ("enhance"), ("update"),
      ("new feature"), ("option"), ("functionality"), ("capability")])
  , (("Security & Trust"),
     [("security"), ("safe"), ("secure"), ("trust"), ("privacy"), ("data"),
      ("protection"), ("hack"), ("fraud"), ("scam"), ("reliable"), ("trustworthy")])
  , (("App Performance & Stability"),
     [("crash"), ("bug"), ("glitch"), ("error"), ("not working"), ("broken"),
      ("freeze"), ("lag"), ("performance"), ("stable"), ("reliable"), ("update"),
      ("version"), ("compatibility"), ("install")])
  ]

/-!
## Theme matcher (`match_keywords_to_themes`)
-/

/-- `keyword_lower = {k.lower(): (k, v) for k, v in keywords.items()}` —
a dict keyed by the lower-cased keyword; on a case-collision the later
entry's value wins while the first occurrence keeps the position. -/
def lowerDict (kws : List (String × ℚ)) : List (String × (String × ℚ)) :=
  kws.foldl (fun m p => dinsert m (strLower p.1) p) []

/-- The raw per-theme match list: for each seed keyword (catalog order) and
each extracted keyword (extraction order), one `(original keyword, score)`
entry whenever either lower-cased string contains the other. -/
def themeMatchesRaw (kws : List (String × ℚ)) (seeds : List String) : List (String × ℚ) :=
  seeds.flatMap (fun seed =>
    (lowerDict kws).filterMap (fun q =>
      if isSub (strLower seed) q.1 || isSub q.1 (strLower seed) then some q.2 else none))

/-- `match_keywords_to_themes`: themes with at least one match, in catalog
order, each with its raw matches sorted descending by score (stably) and
truncated to `max_keywords_per_theme`. -/
def match_keywords_to_themes (maxKw : Nat) (kws : List (String × ℚ)) :
    List (String × List (String × ℚ)) :=
  theme_keywords.filterMap (fun p =>
    let raw := themeMatchesRaw kws p.2
    if raw.isEmpty then none else some (p.1, (sortDesc raw).take maxKw))

/-!
## sklearn `TfidfVectorizer` vocabulary construction

Both extraction (`extract_keywords_tfidf`) and clustering (`cluster_themes`)
build a `TfidfVectorizer(stop_words='english', ngram_range=(1,2), min_df=2,
…)`; the extraction one additionally sets `max_df=0.95`.  Whether
`fit_transform` raises (`empty vocabulary` / `no terms remain after
pruning`) is decided purely by the tokenizer, the stop-word list and the
document frequencies, all embedded concretely below.  The numeric TF-IDF
values of a non-empty vocabulary are left to the `tfidfScores` oracle
(their floating-point values are outside the shallow embedding; no claim
depends on them beyond the concrete values supplied in witnesses).
`max_features` only truncates a non-empty vocabulary and so never changes
whether the vectorizer raises.
-/

/-- A `\w` word character of the default token pattern (ASCII fragment). -/
def isWordChar (c : Char) : Bool := c.isAlphanum || c == '_'

/-- Maximal runs of word characters (the `(?u)\b\w\w+\b` scan, before the
two-character minimum). -/
def tokenRuns : List Char → List Char → List String
  | [], cur => if cur.isEmpty then [] else [String.mk cur.reverse]
  | c :: rest, cur =>
    if isWordChar c then tokenRuns rest (c :: cur)
    else if cur.isEmpty then tokenRuns rest []
    else String.mk cur.reverse :: tokenRuns rest []

/-- sklearn's built-in `english` stop-word list. -/
def sklearnStopWords : List String :=
  [("a"), ("about"), ("above"), ("across"), ("after"), ("afterwards"), ("again"), ("against"),
   ("all"), ("almost"), ("alone"), ("along"), ("already"), ("also"), ("although"), ("always"),
   ("am"), ("among"), ("amongst"), ("amoungst"), ("amount"), ("an"), ("and"), ("another"),
   ("any"), ("anyhow"), ("anyone"), ("anything"), ("anyway"), ("anywhere"), ("are"), ("around"),
   ("as"), ("at"), ("back"), ("be"), ("became"), ("because"), ("become"), ("becomes"),
   ("becoming"), ("been"), ("before"), ("beforehand"), ("behind"), ("being"), ("below"),
   ("beside"), ("besides"), ("between"), ("beyond"), ("bill"), ("both"), ("bottom"), ("but"),
   ("by"), ("call"), ("can"), ("cannot"), ("cant"), ("co"), ("con"), ("could"), ("couldnt"),
   ("cry"), ("de"), ("describe"), ("detail"), ("do"), ("done"), ("down"), ("due"), ("during"),
   ("each"), ("eg"), ("eight"), ("either"), ("eleven"), ("else"), ("elsewhere"), ("empty"),
   ("enough"), ("etc"), ("even"), ("ever"), ("every"), ("everyone"), ("everything"),
   ("everywhere"), ("except"), ("few"), ("fifteen"), ("fifty"), ("fill"), ("find"), ("fire"),
   ("first"), ("five"), ("for"), ("former"), ("formerly"), ("forty"), ("found"), ("four"),
   ("from"), ("front"), ("full"), ("further"), ("get"), ("give"), ("go"), ("had"), ("has"),
   ("hasnt"), ("have"), ("he"), ("hence"), ("her"), ("here"), ("hereafter"), ("hereby"),
   ("herein"), ("hereupon"), ("hers"), ("herself"), ("him"), ("himself"), ("his"), ("how"),
   ("however"), ("hundred"), ("i"), ("ie"), ("if"), ("in"), ("inc"), ("indeed"), ("interest"),
   ("into"), ("is"), ("it"), ("its"), ("itself"), ("keep"), ("last"), ("latter"), ("latterly"),
   ("least"), ("less"), ("ltd"), ("made"), ("many"), ("may"), ("me"), ("meanwhile"), ("might"),
   ("mill"), ("mine"), ("more"), ("moreover"), ("most"), ("mostly"), ("move"), ("much"),
   ("must"), ("my"), ("myself"), ("name"), ("namely"), ("neither"), ("never"), ("nevertheless"),
   ("next"), ("nine"), ("no"), ("nobody"), ("none"), ("noone"), ("nor"), ("not"), ("nothing"),
   ("now"), ("nowhere"), ("of"), ("off"), ("often"), ("on"), ("once"), ("one"), ("only"),
   ("onto"), ("or"), ("other"), ("others"), ("otherwise"), ("our"), ("ours"), ("ourselves"),
   ("out"), ("over"), ("own"), ("part"), ("per"), ("perhaps"), ("please"), ("put"), ("rather"),
   ("re"), ("same"), ("see"), ("seem"), ("seemed"), ("seeming"), ("seems"), ("serious"),
   ("several"), ("she"), ("should"), ("show"), ("side"), ("since"), ("sincere"), ("six"),
   ("sixty"), ("so"), ("some"), ("somehow"), ("someone"), ("something"), ("sometime"),
   ("sometimes"), ("somewhere"), ("still"), ("such"), ("system"), ("take"), ("ten"), ("than"),
   ("that"), ("the"), ("their"), ("them"), ("themselves"), ("then"), ("thence"), ("there"),
   ("thereafter"), ("thereby"), ("therefore"), ("therein"), ("thereupon"), ("these"), ("they"),
   ("thick"), ("thin"), ("third"), ("this"), ("those"), ("though"), ("three"), ("through"),
   ("throughout"), ("thru"), ("thus"), ("to"), ("together"), ("too"), ("top"), ("toward"),
   ("towards"), ("twelve"), ("twenty"), ("two"), ("un"), ("under"), ("until"), ("up"), ("upon"),
   ("us"), ("very"), ("via"), ("was"), ("we"), ("well"), ("were"), ("what"), ("whatever"),
   ("when"), ("whence"), ("whenever"), ("where"), ("whereafter"), ("whereas"), ("whereby"),
   ("wherein"), ("whereupon"), ("wherever"), ("whether"), ("which"), ("while"), ("whither"),
   ("who"), ("whoever"), ("whole"), ("whom"), ("whose"), ("why"), ("will"), ("with"),
   ("within"), ("without"), ("would"), ("yet"), ("you"), ("your"), ("yours"), ("yourself"),
   ("yourselves")]

/-- The analyzer's token stream for one document: lower-case, keep runs of
`≥ 2` word characters, drop stop words. -/
def analyzerTokens (s : String) : List String :=
  ((tokenRuns (strLower s).data []).filter (fun t => 2 ≤ t.length)).filter
    (fun t => !(sklearnStopWords.contains t))

/-- Unigrams and bigrams over the stop-word-filtered token stream
(`ngram_range=(1, 2)`). -/
def docTerms (s : String) : List String :=
  let ts := analyzerTokens s
  ts ++ (ts.zip ts.tail).map (fun p => p.1 ++ (" ") ++ p.2)

/-- Document frequency of a term over a batch. -/
def termDf (docs : List String) (t : String) : Nat :=
  docs.countP (fun d => (docTerms d).contains t)

/-- All candidate terms of a batch, in first-appearance order. -/
def candidateTerms (docs : List String) : List String :=
  uniqFirst (docs.flatMap docTerms)

/-- `int(max_df * n_docs)` for `max_df = 0.95` (exact for the document
counts exercised here; `95 * n / 100` truncates like `int`). -/
def maxDocCount (n : Nat) : Nat := 95 * n / 100

/-- Surviving vocabulary of the extraction vectorizer
(`min_df=2, max_df=0.95`); `fit_transform` raises exactly when this is
empty. -/
def vocabExtraction (docs : List String) : List String :=
  (candidateTerms docs).filter
    (fun t => 2 ≤ termDf docs t && termDf docs t ≤ maxDocCount docs.length)

/-- Surviving vocabulary of the clustering vectorizer (`min_df=2`, no
`max_df`); `fit_transform` raises exactly when this is empty. -/
def vocabCluster (docs : List String) : List String :=
  (candidateTerms docs).filter (fun t => 2 ≤ termDf docs t)

/-!
## Configuration and third-party oracles
-/

/-- Constructor parameters of `ThematicAnalyzer` (with source defaults).
`use_spacy` is folded into `Oracles.spacyItems = none` (spaCy disabled or
unavailable). -/
structure Config where
  nThemes : Nat := 5
  minKeywordFreq : Nat := 3
  maxKeywordsPerTheme : Nat := 10

/-- Black-box numeric components of the pipeline:

* `tfidfScores` — the term → mean-TF-IDF map sklearn produces once the
  vocabulary is non-empty (the code then sorts it descending);
* `spacyItems` — for one lower-cased text, the stream of items spaCy's
  tagger contributes to the counter (lemmas of kept NOUN/ADJ/VERB tokens
  plus kept noun chunks, one occurrence per hit); `none` models
  `use_spacy = False` / spaCy unavailable;
* `kmeans` — the label vector `KMeans(n_clusters=k, random_state=42,
  n_init=10).fit_predict` returns, or an error when it raises. -/
structure Oracles where
  tfidfScores : List (Option String) → List (String × ℚ)
  spacyItems : Option (String → List String)
  kmeans : Nat → List (Option String) → Except Unit (List Nat)

/-!
## Keyword extraction (`extract_keywords_tfidf`, `extract_keywords_spacy`,
`extract_keywords`)
-/

/-- The body of the `try` block of `extract_keywords_tfidf`: raises when a
text is `NaN` (no `.lower()` on a float) or when the pruned vocabulary is
empty; otherwise the score map, sorted descending by score. -/
def tfidfBody (O : Oracles) (texts : List (Option String)) : Except Unit (List (String × ℚ)) :=
  if texts.any (fun t => t.isNone) then Except.error ()
  else if (vocabExtraction (texts.filterMap id)).isEmpty then Except.error ()
  else Except.ok (sortDesc (O.tfidfScores texts))

/-- `extract_keywords_tfidf`: empty input and any exception both yield the
empty mapping. -/
def extract_keywords_tfidf (O : Oracles) (texts : List (Option String)) : List (String × ℚ) :=
  if texts.isEmpty then []
  else
    match tfidfBody O texts with
    | Except.ok m => m
    | Except.error _ => []

/-- The accumulated spaCy counter over a batch (falsy and `NaN` texts are
skipped; each text contributes its oracle item stream). -/
def spacyCounter (items : String → List String) (texts : List (Option String)) :
    List (String × Nat) :=
  texts.foldl (fun m t =>
    match t with
    | none => m
    | some s => if s.isEmpty then m else (items (strLower s)).foldl bump m) []

/-- `extract_keywords_spacy`: normalised counter (`count / total`), or the
empty mapping when spaCy is off, the input is empty, or nothing was
counted. -/
def extract_keywords_spacy (O : Oracles) (texts : List (Option String)) : List (String × ℚ) :=
  match O.spacyItems with
  | none => []
  | some items =>
    if texts.isEmpty then []
    else
      let ctr := spacyCounter items texts
      let total := (ctr.map (fun p => p.2)).sum
      if 0 < total then ctr.map (fun p => (p.1, qdiv p.2 total)) else []

/-- The `method='both'` combination loop: start from the TF-IDF dict; each
spaCy term is averaged into an existing entry or appended with its own
score. -/
def combineBoth (t s : List (String × ℚ)) : List (String × ℚ) :=
  s.foldl (fun m p =>
    match alookup m p.1 with
    | some v0 => dinsert m p.1 (qavg v0 p.2)
    | none => dinsert m p.1 p.2) t

/-- The `method` argument of `extract_keywords`. -/
inductive Method
  | tfidf
  | spacy
  | both

/-- `extract_keywords`: strategy selection / combination followed by the
minimum-frequency post-filter `score ≥ min_keyword_freq / len(texts)`. -/
def extract_keywords (O : Oracles) (cfg : Config) (m : Method)
    (texts : List (Option String)) : List (String × ℚ) :=
  let allKw : List (String × ℚ) :=
    match m with
    | Method.tfidf => extract_keywords_tfidf O texts
    | Method.spacy => extract_keywords_spacy O texts
    | Method.both => combineBoth (extract_keywords_tfidf O texts) (extract_keywords_spacy O texts)
  if texts.isEmpty then []
  else allKw.filter (fun p => qdiv cfg.minKeywordFreq texts.length ≤ p.2)

/-!
## Cluster supplementer (`cluster_themes`)
-/

/-- `clusters[label].append(texts[idx])` over an enumerated label vector:
clusters keyed by label in first-appearance order, texts in index order. -/
def groupByLabels (pairs : List (Nat × Option String)) : List (Nat × List (Option String)) :=
  pairs.foldl (fun acc q =>
    if acc.any (fun p => p.1 == q.1) then
      acc.map (fun p => if p.1 == q.1 then (p.1, p.2 ++ [q.2]) else p)
    else acc ++ [(q.1, [q.2])]) []

/-- The cluster count handed to `KMeans`:
`n_clusters = n_clusters or min(self.n_themes, len(texts))` followed by
`n_clusters = min(n_clusters, len(texts))` (`0` is falsy in Python). -/
def clusterRequestedK (cfg : Config) (nArg : Option Nat) (textsLen : Nat) : Nat :=
  let n0 : Nat :=
    match nArg with
    | some n => if n = 0 then min cfg.nThemes textsLen else n
    | none => min cfg.nThemes textsLen
  min n0 textsLen

/-- `cluster_themes`: fewer than two texts, a vectorizer error (`NaN` text
or empty vocabulary) or a `KMeans` error all yield the empty cluster map;
otherwise the texts grouped by their labels. -/
def cluster_themes (O : Oracles) (cfg : Config) (nArg : Option Nat)
    (texts : List (Option String)) : List (Nat × List (Option String)) :=
  if texts.length < 2 then []
  else if texts.any (fun t => t.isNone) then []
  else if (vocabCluster (texts.filterMap id)).isEmpty then []
  else
    match O.kmeans (clusterRequestedK cfg nArg texts.length) texts with
    | Except.error _ => []
    | Except.ok labels => groupByLabels (labels.zip texts)

/-!
## Theme identification (`identify_themes`)
-/

/-- The per-theme record stored in the theme dict. -/
structure ThemeInfo where
  keywords : List String
  keywordScores : List (String × ℚ)
  reviewCount : Nat
  logic : String
deriving DecidableEq

/-- The record built for a catalog theme with matches. -/
def mkCatalogInfo (name : String) (matched : List (String × ℚ)) : ThemeInfo :=
  { keywords := matched.map (fun p => p.1)
  , keywordScores := matched.foldl (fun m p => dinsert m p.1 p.2) []
  , reviewCount := 0
  , logic := ("Matched ") ++ toString matched.length ++ (" keywords related to ") ++ strLower name }

/-- The catalog part of the theme dict: every matched theme, in catalog
order, skipping themes whose match list is empty. -/
def catalogThemes (O : Oracles) (cfg : Config) (texts : List (Option String)) :
    List (String × ThemeInfo) :=
  (match_keywords_to_themes cfg.maxKeywordsPerTheme
      (extract_keywords O cfg Method.both texts)).foldl
    (fun acc p => if p.2.isEmpty then acc else dinsert acc p.1 (mkCatalogInfo p.1 p.2)) []

/-- The synthetic theme built from one cluster `(label, texts)`: named by
the internal cluster label (`"Cluster Theme {cluster_id + 1}"`), with the
top 5 TF-IDF keywords of just that cluster's texts and an initial
`review_count` of the cluster size. -/
def mkClusterTheme (O : Oracles) (cfg : Config) (q : Nat × List (Option String)) :
    String × ThemeInfo :=
  let ck := extract_keywords O cfg Method.tfidf q.2
  let top := (sortDesc ck).take 5
  (("Cluster Theme ") ++ toString (q.1 + 1),
   { keywords := top.map (fun p => p.1)
   , keywordScores := top.foldl (fun m p => dinsert m p.1 p.2) []
   , reviewCount := q.2.length
   , logic := ("Identified via K-means clustering with top keywords: ") ++
       String.intercalate (", ") ((top.take 3).map (fun p => p.1)) })

/-- `identify_themes`: the catalog themes, supplemented — when fewer than
`n_themes` matched and clustering produced anything — by the first
`n_themes - len(themes)` clusters as synthetic themes. -/
def identify_themes (O : Oracles) (cfg : Config) (texts : List (Option String)) :
    List (String × ThemeInfo) :=
  if texts.isEmpty then []
  else
    let base := catalogThemes O cfg texts
    let clusters := cluster_themes O cfg (some cfg.nThemes) texts
    if base.length < cfg.nThemes ∧ !clusters.isEmpty then
      (clusters.take (cfg.nThemes - base.length)).foldl
        (fun acc q =>
          let p := mkClusterTheme O cfg q
          dinsert acc p.1 p.2) base
    else base

/-!
## Review classifier (`classify_review_theme`) and per-DataFrame driver
(`analyze_dataframe`)
-/

/-- `classify_review_theme`: empty/missing text or an empty theme dict give
`[]`; otherwise all themes one of whose keywords occurs in the lower-cased
text, or `['Uncategorized']` when none does. -/
def classify_review_theme (text : Option String) (themes : List (String × ThemeInfo)) :
    List String :=
  match text with
  | none => []
  | some t =>
    if t.isEmpty || themes.isEmpty then []
    else
      let lower := strLower t
      let matched := themes.filterMap (fun p =>
        if 0 < p.2.keywords.countP (fun kw => isSub (strLower kw) lower) then some p.1 else none)
      if matched.isEmpty then [("Uncategorized")] else matched

/-- One input row of the DataFrame: the review text (possibly `NaN`) and
the bank/group identifier. -/
structure Row where
  text : Option String
  bank : String
deriving DecidableEq

/-- One output row: the input columns plus the two theme columns, which
start as `None` and are only written when the classifier returned a
non-empty list. -/
structure ORow where
  text : Option String
  bank : String
  identifiedThemes : Option String
  primaryTheme : Option String
deriving DecidableEq

/-- `bank_df[text_column].tolist()` for one bank. -/
def groupTexts (rows : List Row) (b : String) : List (Option String) :=
  (rows.filter (fun r => r.bank == b)).map (fun r => r.text)

/-- Classification of one row against its group's themes; with an empty
match list both columns keep their initial `None`. -/
def classifyRow (themes : List (String × ThemeInfo)) (r : Row) : ORow :=
  let mt := classify_review_theme r.text themes
  { text := r.text
  , bank := r.bank
  , identifiedThemes := if mt.isEmpty then none else some (String.intercalate ("; ") mt)
  , primaryTheme := if mt.isEmpty then none else mt.head? }

/-- `themes[theme_name]['review_count'] = count`. -/
def setCount (info : ThemeInfo) (n : Nat) : ThemeInfo := { info with reviewCount := n }

/-- `analyze_dataframe`, parametric in the per-group theme identification
(instantiated with `identify_themes O cfg` for the full pipeline): classify
every row against its bank's themes, then recompute every theme's
`review_count` as the number of rows of that bank whose `primary_theme`
equals the theme's name.  Returns the output rows and the per-bank theme
dict. -/
def analyze_dataframe (identify : List (Option String) → List (String × ThemeInfo))
    (rows : List Row) : List ORow × List (String × List (String × ThemeInfo)) :=
  let outRows := rows.map (fun r => classifyRow (identify (groupTexts rows r.bank)) r)
  let allThemes := (uniqFirst (rows.map (fun r => r.bank))).map (fun b =>
    (b, (identify (groupTexts rows b)).map (fun p =>
      (p.1, setCount p.2 (outRows.countP
        (fun o => o.bank == b && o.primaryTheme == some p.1))))))
  (outRows, allThemes)

/-!
## Bridge lemmas for the kernel-computable rational helpers
-/

/-- `qdiv` is true division. -/
theorem qdiv_eq (m n : Nat) : qdiv m n = (m : ℚ) / (n : ℚ) := by
  rw [qdiv, Rat.mkRat_eq_divInt, Rat.divInt_eq_div]
  push_cast
  rfl

/-- `qavg` is the arithmetic mean. -/
theorem qavg_eq (a b : ℚ) : qavg a b = (a + b) / 2 := by
  have ha : ((a.den : ℚ)) ≠ 0 := by exact_mod_cast a.den_nz
  have hb : ((b.den : ℚ)) ≠ 0 := by exact_mod_cast b.den_nz
  have h2 : ((2 : ℚ) * ((a.den : ℚ) * (b.den : ℚ))) ≠ 0 :=
    mul_ne_zero (by norm_num) (mul_ne_zero ha hb)
  have hA : ((a.num : ℚ)) = a * (a.den : ℚ) := (div_eq_iff ha).1 (Rat.num_div_den a)
  have hB : ((b.num : ℚ)) = b * (b.den : ℚ) := (div_eq_iff hb).1 (Rat.num_div_den b)
  rw [qavg, Rat.mkRat_eq_divInt, Rat.divInt_eq_div]
  push_cast
  rw [div_eq_div_iff h2 (by norm_num : (2 : ℚ) ≠ 0), hA, hB]
  ring

/-!
## The stable descending sort
-/

theorem mem_insertDesc {α : Type} {x z : α × ℚ} {l : List (α × ℚ)} :
    z ∈ insertDesc x l ↔ z = x ∨ z ∈ l := by
  induction l with
  | nil => simp [insertDesc]
  | cons y ys ih =>
    rw [insertDesc]
    by_cases hc : y.2 < x.2
    · simp [hc]
    · simp only [if_neg hc, List.mem_cons, ih]
      tauto

/-- Inserting into a descending-sorted list keeps it descending-sorted. -/
theorem insertDesc_pairwise {α : Type} (x : α × ℚ) (l : List (α × ℚ))
    (h : l.Pairwise (fun a b => b.2 ≤ a.2)) :
    (insertDesc x l).Pairwise (fun a b => b.2 ≤ a.2) := by
  induction l with
  | nil => simp [insertDesc]
  | cons y ys ih =>
    rw [List.pairwise_cons] at h
    rw [insertDesc]
    by_cases hc : y.2 < x.2
    · rw [if_pos hc]
      refine List.Pairwise.cons ?_ (List.Pairwise.cons h.1 h.2)
      intro z hz
      rcases List.mem_cons.1 hz with hz | hz
      · exact hz ▸ le_of_lt hc
      · exact le_trans (h.1 z hz) (le_of_lt hc)
    · rw [if_neg hc]
      refine List.Pairwise.cons ?_ (ih h.2)
      intro z hz
      rcases mem_insertDesc.1 hz with hz | hz
      · exact hz ▸ le_of_not_lt hc
      · exact h.1 z hz

theorem foldl_insertDesc_pairwise {α : Type} (l acc : List (α × ℚ))
    (h : acc.Pairwise (fun a b => b.2 ≤ a.2)) :
    (l.foldl (fun acc x => insertDesc x acc) acc).Pairwise (fun a b => b.2 ≤ a.2) := by
  induction l generalizing acc with
  | nil => exact h
  | cons x xs ih => exact ih _ (insertDesc_pairwise x acc h)

/-- The sort output is descending in the scores. -/
theorem sortDesc_pairwise {α : Type} (l : List (α × ℚ)) :
    (sortDesc l).Pairwise (fun a b => b.2 ≤ a.2) :=
  foldl_insertDesc_pairwise l [] (List.Pairwise.nil)

/-- Where stability comes from: inserting an element of score `s` into a
descending-sorted list places it after every held element of score `s`. -/
theorem filter_insertDesc {α : Type} (x : α × ℚ) (l : List (α × ℚ)) (s : ℚ)
    (h : l.Pairwise (fun a b => b.2 ≤ a.2)) :
    (insertDesc x l).filter (fun p => p.2 == s) =
      if x.2 == s then l.filter (fun p => p.2 == s) ++ [x]
      else l.filter (fun p => p.2 == s) := by
  induction l with
  | nil => by_cases hx : x.2 == s <;> simp [insertDesc, hx]
  | cons y ys ih =>
    rw [List.pairwise_cons] at h
    rw [insertDesc]
    by_cases hc : y.2 < x.2
    · rw [if_pos hc]
      by_cases hx : x.2 == s
      · have hemp : (y :: ys).filter (fun p => p.2 == s) = [] := by
          rw [List.filter_eq_nil_iff]
          intro z hz
          have hzlt : z.2 < x.2 := by
            rcases List.mem_cons.1 hz with hz | hz
            · exact hz ▸ hc
            · exact lt_of_le_of_lt (h.1 z hz) hc
          have hxs : x.2 = s := beq_iff_eq.1 hx
          simp only [beq_iff_eq]
          intro hzs
          rw [hzs, ← hxs] at hzlt
          exact lt_irrefl _ hzlt
        simp [List.filter_cons, hx, hemp]
      · simp [List.filter_cons, hx]
    · rw [if_neg hc]
      rw [List.filter_cons, ih h.2]
      by_cases hy : y.2 == s <;> by_cases hx : x.2 == s <;>
        simp [List.filter_cons, hy, hx]

/-- Stability of the sort: elements of any fixed score appear in the output
in exactly the order the input held them. -/
theorem foldl_insertDesc_filter {α : Type} (l acc : List (α × ℚ)) (s : ℚ)
    (h : acc.Pairwise (fun a b => b.2 ≤ a.2)) :
    (l.foldl (fun acc x => insertDesc x acc) acc).filter (fun p => p.2 == s) =
      acc.filter (fun p => p.2 == s) ++ l.filter (fun p => p.2 == s) := by
  induction l generalizing acc with
  | nil => simp
  | cons x xs ih =>
    rw [List.foldl_cons, ih _ (insertDesc_pairwise x acc h), filter_insertDesc x acc s h,
        List.filter_cons]
    by_cases hx : x.2 == s <;> simp [hx]

theorem sortDesc_filter {α : Type} (l : List (α × ℚ)) (s : ℚ) :
    (sortDesc l).filter (fun p => p.2 == s) = l.filter (fun p => p.2 == s) := by
  simpa using foldl_insertDesc_filter l [] s List.Pairwise.nil

/-!
## Dictionary lemmas
-/

theorem any_key_eq {α : Type} (m : List (String × α)) (k : String) :
    m.any (fun p => p.1 == k) = true ↔ k ∈ akeys m := by
  simp only [akeys, List.any_eq_true]
  constructor
  · rintro ⟨p, hp, hbeq⟩
    exact (beq_iff_eq.1 hbeq) ▸ (List.mem_map_of_mem _ hp)
  · intro hk
    rcases List.mem_map.1 hk with ⟨p, hp, rfl⟩
    exact ⟨p, hp, beq_self_eq_true _⟩

theorem alookup_eq_none_of_not_mem {α : Type} {m : List (String × α)} {k : String}
    (h : k ∉ akeys m) : alookup m k = none := by
  induction m with
  | nil => rfl
  | cons p rest ih =>
    rw [akeys, List.map_cons, List.mem_cons, not_or] at h
    rw [alookup, if_neg (by simpa [beq_iff_eq] using Ne.symm h.1)]
    exact ih h.2

theorem dinsert_of_not_mem {α : Type} (m : List (String × α)) (k : String) (v : α)
    (h : k ∉ akeys m) : dinsert m k v = m ++ [(k, v)] := by
  rw [dinsert, if_neg]
  simp only [ne_eq, Bool.not_eq_true]
  rw [← Bool.not_eq_true, any_key_eq]
  exact h

theorem alookup_map_set_self {α : Type} (m : List (String × α)) (k : String) (v : α)
    (hmem : k ∈ akeys m) :
    alookup (m.map (fun p => if p.1 == k then (p.1, v) else p)) k = some v := by
  induction m with
  | nil => cases hmem
  | cons p rest ih =>
    by_cases hp : (p.1 == k) = true
    · rw [List.map_cons, if_pos hp, alookup, if_pos hp]
    · rw [akeys, List.map_cons, List.mem_cons] at hmem
      rcases hmem with hmem | hmem
      · exact absurd (beq_iff_eq.2 hmem.symm) (by simpa using hp)
      · rw [List.map_cons, if_neg hp, alookup, if_neg hp]
        exact ih hmem

theorem alookup_map_set_ne {α : Type} (m : List (String × α)) (k : String) (v : α)
    (k' : String) (h : k' ≠ k) :
    alookup (m.map (fun p => if p.1 == k then (p.1, v) else p)) k' = alookup m k' := by
  induction m with
  | nil => rfl
  | cons p rest ih =>
    by_cases hp : (p.1 == k) = true
    · have hne : (p.1 == k') = false := by
        rw [beq_eq_false_iff_ne, beq_iff_eq.1 hp]
        exact fun hh => h hh.symm
      rw [List.map_cons, if_pos hp, alookup, if_neg (by simp [hne]), alookup,
        if_neg (by simp [hne])]
      exact ih
    · rw [List.map_cons, if_neg hp, alookup, alookup]
      by_cases hpk : (p.1 == k') = true
      · rw [if_pos hpk, if_pos hpk]
      · rw [if_neg hpk, if_neg hpk]
        exact ih

theorem alookup_append_single_ne {α : Type} (m : List (String × α)) (k : String) (v : α)
    (k' : String) (h : k' ≠ k) : alookup (m ++ [(k, v)]) k' = alookup m k' := by
  induction m with
  | nil =>
    simp only [List.nil_append, alookup]
    rw [if_neg (fun hc => h (beq_iff_eq.1 hc).symm)]
  | cons p rest ih =>
    rw [List.cons_append]
    simp only [alookup]
    by_cases hpk : (p.1 == k') = true
    · rw [if_pos hpk, if_pos hpk]
    · rw [if_neg hpk, if_neg hpk]
      exact ih

theorem alookup_append_of_none {α : Type} (m l : List (String × α)) (k : String)
    (h : alookup m k = none) : alookup (m ++ l) k = alookup l k := by
  induction m with
  | nil => rfl
  | cons p rest ih =>
    rw [alookup] at h
    by_cases hpk : (p.1 == k) = true
    · rw [if_pos hpk] at h
      cases h
    · rw [if_neg hpk] at h
      rw [List.cons_append, alookup, if_neg hpk]
      exact ih h

theorem alookup_dinsert_self {α : Type} (m : List (String × α)) (k : String) (v : α) :
    alookup (dinsert m k v) k = some v := by
  rw [dinsert]
  by_cases hany : m.any (fun p => p.1 == k) = true
  · rw [if_pos hany]
    exact alookup_map_set_self m k v ((any_key_eq m k).1 hany)
  · rw [if_neg hany]
    have hnm : k ∉ akeys m := fun hc => hany ((any_key_eq m k).2 hc)
    rw [alookup_append_of_none m _ k (alookup_eq_none_of_not_mem hnm)]
    simp only [alookup]
    rw [if_pos (beq_self_eq_true k)]

theorem alookup_dinsert_ne {α : Type} (m : List (String × α)) (k : String) (v : α)
    (k' : String) (h : k' ≠ k) : alookup (dinsert m k v) k' = alookup m k' := by
  rw [dinsert]
  by_cases hany : m.any (fun p => p.1 == k) = true
  · rw [if_pos hany]
    exact alookup_map_set_ne m k v k' h
  · rw [if_neg hany]
    exact alookup_append_single_ne m k v k' h

theorem akeys_cons {α : Type} (p : String × α) (m : List (String × α)) :
    akeys (p :: m) = p.1 :: akeys m := rfl

theorem akeys_append {α : Type} (m l : List (String × α)) :
    akeys (m ++ l) = akeys m ++ akeys l := by
  simp [akeys]

theorem combineBoth_disjoint (t s : List (String × ℚ)) (hs : (akeys s).Nodup)
    (hdisj : ∀ k ∈ akeys s, k ∉ akeys t) : combineBoth t s = t ++ s := by
  induction s generalizing t with
  | nil => simp [combineBoth]
  | cons p rest ih =>
    have hp : p.1 ∉ akeys t := hdisj p.1 (by rw [akeys_cons]; exact List.mem_cons_self _ _)
    have hlook : alookup t p.1 = none := alookup_eq_none_of_not_mem hp
    rw [akeys_cons, List.nodup_cons] at hs
    have step : combineBoth t (p :: rest) = combineBoth (t ++ [p]) rest := by
      rw [combineBoth, List.foldl_cons, hlook, dinsert_of_not_mem t p.1 p.2 hp]
      rfl
    have hdisj2 : ∀ k ∈ akeys rest, k ∉ akeys (t ++ [p]) := by
      intro k hk hc
      rw [akeys_append] at hc
      rcases List.mem_append.1 hc with hc | hc
      · exact hdisj k (by rw [akeys_cons]; exact List.mem_cons_of_mem _ hk) hc
      · have hc2 : k = p.1 := by simpa [akeys] using hc
        exact hs.1 (hc2 ▸ hk)
    rw [step, ih (t ++ [p]) hs.2 hdisj2, List.append_assoc]
    rfl

theorem combineBoth_nil (s : List (String × ℚ)) (hs : (akeys s).Nodup) :
    combineBoth [] s = s := by
  simpa using combineBoth_disjoint [] s hs (by simp [akeys])

theorem akeys_map_val {α β : Type} (m : List (String × α)) (f : String × α → β) :
    akeys (m.map (fun p => (p.1, f p))) = akeys m := by
  simp [akeys, List.map_map]

/-!
## Counter invariants (spaCy accumulation)
-/

theorem akeys_bump (m : List (String × Nat)) (k : String) :
    akeys (bump m k) = if k ∈ akeys m then akeys m else akeys m ++ [k] := by
  rw [bump]
  by_cases hany : m.any (fun p => p.1 == k) = true
  · rw [if_pos hany, if_pos ((any_key_eq m k).1 hany)]
    simp only [akeys, List.map_map]
    apply List.map_congr_left
    intro p hp
    by_cases hc : p.1 = k <;> simp [hc]
  · rw [if_neg hany, if_neg (fun hc => hany ((any_key_eq m k).2 hc))]
    simp [akeys]

theorem keysNodup_bump (m : List (String × Nat)) (k : String)
    (h : (akeys m).Nodup) : (akeys (bump m k)).Nodup := by
  rw [akeys_bump]
  by_cases hc : k ∈ akeys m
  · rw [if_pos hc]
    exact h
  · rw [if_neg hc]
    rw [List.nodup_append]
    refine ⟨h, List.nodup_singleton k, ?_⟩
    intro a ha hb
    rw [List.mem_singleton] at hb
    exact hc (hb ▸ ha)

theorem bump_pos (m : List (String × Nat)) (k : String) (h : ∀ p ∈ m, 1 ≤ p.2) :
    ∀ p ∈ bump m k, 1 ≤ p.2 := by
  intro p hp
  rw [bump] at hp
  by_cases hany : m.any (fun q => q.1 == k) = true
  · rw [if_pos hany] at hp
    rcases List.mem_map.1 hp with ⟨q, hq, rfl⟩
    by_cases hc : (q.1 == k) = true
    · simp [hc]
    · simp only [hc, Bool.false_eq_true, if_neg, not_false_iff]
      exact h q hq
  · rw [if_neg hany] at hp
    rcases List.mem_append.1 hp with hp | hp
    · exact h p hp
    · rcases List.mem_singleton.1 hp with rfl
      exact le_refl 1

theorem foldl_bump_keysNodup (items : List String) (m : List (String × Nat))
    (h : (akeys m).Nodup) : (akeys (items.foldl bump m)).Nodup := by
  induction items generalizing m with
  | nil => exact h
  | cons i is ih => exact ih _ (keysNodup_bump m i h)

theorem foldl_bump_pos (items : List String) (m : List (String × Nat))
    (h : ∀ p ∈ m, 1 ≤ p.2) : ∀ p ∈ items.foldl bump m, 1 ≤ p.2 := by
  induction items generalizing m with
  | nil => exact h
  | cons i is ih => exact ih _ (bump_pos m i h)

theorem spacyCounter_invariants (items : String → List String)
    (texts : List (Option String)) :
    (akeys (spacyCounter items texts)).Nodup ∧ ∀ p ∈ spacyCounter items texts, 1 ≤ p.2 := by
  rw [spacyCounter]
  have aux : ∀ (m : List (String × Nat)), (akeys m).Nodup → (∀ p ∈ m, 1 ≤ p.2) →
      (akeys (texts.foldl (fun m t =>
        match t with
        | none => m
        | some s => if s.isEmpty then m else (items (strLower s)).foldl bump m) m)).Nodup ∧
      ∀ p ∈ texts.foldl (fun m t =>
        match t with
        | none => m
        | some s => if s.isEmpty then m else (items (strLower s)).foldl bump m) m, 1 ≤ p.2 := by
    induction texts with
    | nil => exact fun m hn hp => ⟨hn, hp⟩
    | cons t ts ih =>
      intro m hn hp
      rw [List.foldl_cons]
      cases t with
      | none => exact ih m hn hp
      | some s =>
        by_cases hs : s.isEmpty
        · simpa [hs] using ih m hn hp
        · simp only [hs, Bool.false_eq_true, if_neg, not_false_iff]
          exact ih _ (foldl_bump_keysNodup _ m hn) (foldl_bump_pos _ m hp)
  exact aux [] (by simp [akeys]) (by simp)

theorem keysNodup_spacy (O : Oracles) (texts : List (Option String)) :
    (akeys (extract_keywords_spacy O texts)).Nodup := by
  rw [extract_keywords_spacy]
  cases hsp : O.spacyItems with
  | none => simp [akeys]
  | some items =>
    by_cases ht : texts.isEmpty
    · simp [ht, akeys]
    · simp only [ht, Bool.false_eq_true, if_neg, not_false_iff]
      by_cases htot : 0 < ((spacyCounter items texts).map (fun p => p.2)).sum
      · rw [if_pos htot, akeys_map_val]
        exact (spacyCounter_invariants items texts).1
      · rw [if_neg htot]
        simp [akeys]

/-!
## Fresh-key insertion folds
-/

theorem foldl_dinsert_fresh {α β : Type} (f : β → String × α) (l : List β)
    (acc : List (String × α)) (h : (akeys (acc ++ l.map f)).Nodup) :
    l.foldl (fun m q => dinsert m (f q).1 (f q).2) acc = acc ++ l.map f := by
  induction l generalizing acc with
  | nil => simp
  | cons q rest ih =>
    have hsplit := List.nodup_append.1 (by rw [← akeys_append]; exact h :
      ((akeys acc) ++ (akeys ((q :: rest).map f))).Nodup)
    have hkey : (f q).1 ∉ akeys acc := by
      intro hc
      exact hsplit.2.2 hc (by rw [List.map_cons, akeys_cons]; exact List.mem_cons_self _ _)
    rw [List.foldl_cons, dinsert_of_not_mem _ _ _ hkey]
    have h2 : (akeys ((acc ++ [f q]) ++ rest.map f)).Nodup := by
      rw [List.append_assoc]
      exact (by simpa using h)
    rw [ih (acc ++ [f q]) h2, List.append_assoc]
    rfl

/-!
## Looking a theme up in the matcher's output
-/

theorem mem_akeys_filterMap {β γ : Type} {l : List (String × β)} {f : β → Option γ}
    {k : String} (hk : k ∈ akeys (l.filterMap (fun p => (f p.2).map (fun c => (p.1, c))))) :
    k ∈ l.map (fun p => p.1) := by
  rcases List.mem_map.1 hk with ⟨q, hq, rfl⟩
  rcases List.mem_filterMap.1 hq with ⟨p, hp, hpq⟩
  cases hf : f p.2 with
  | none => rw [hf] at hpq; cases hpq
  | some c =>
    rw [hf] at hpq
    cases hpq
    exact List.mem_map_of_mem _ hp

/-- Looking up a key in a key-decorated `filterMap` over a nodup-keyed list
returns exactly the entry computed from that key's payload. -/
theorem alookup_filterMap_keyed {β γ : Type} (l : List (String × β)) (f : β → Option γ)
    (hnd : (l.map (fun p => p.1)).Nodup) {name : String} {b : β}
    (hmem : (name, b) ∈ l) :
    alookup (l.filterMap (fun p => (f p.2).map (fun c => (p.1, c)))) name = f b := by
  induction l with
  | nil => cases hmem
  | cons p rest ih =>
    rw [List.map_cons, List.nodup_cons] at hnd
    rcases List.mem_cons.1 hmem with hmem | hmem
    · subst hmem
      rw [List.filterMap_cons]
      cases hf : f b with
      | none =>
        simp only [hf, Option.map_none']
        exact alookup_eq_none_of_not_mem (fun hc => hnd.1 (mem_akeys_filterMap hc))
      | some c =>
        simp only [hf, Option.map_some']
        rw [alookup, if_pos (beq_self_eq_true _)]
    · have hname : name ∈ rest.map (fun p => p.1) :=
        (show ((name, b).1 : String) ∈ rest.map (fun p => p.1) from
          List.mem_map_of_mem _ hmem)
      have hne : (p.1 == name) = false := by
        rw [beq_eq_false_iff_ne]
        exact fun hc => hnd.1 (hc ▸ hname)
      rw [List.filterMap_cons]
      cases hf : f p.2 with
      | none =>
        simp only [hf, Option.map_none']
        exact ih hnd.2 hmem
      | some c =>
        simp only [hf, Option.map_some']
        rw [alookup, if_neg (by simp [hne])]
        exact ih hnd.2 hmem

/-- The catalog has no duplicated theme names. -/
theorem theme_keywords_nodup : (theme_keywords.map (fun p => p.1)).Nodup := by decide

/-- `match_keywords_to_themes` in key-decorated `filterMap` form. -/
theorem match_keywords_eq_filterMap (maxKw : Nat) (kws : List (String × ℚ)) :
    match_keywords_to_themes maxKw kws =
      theme_keywords.filterMap (fun p =>
        (if (themeMatchesRaw kws p.2).isEmpty then none
         else some ((sortDesc (themeMatchesRaw kws p.2)).take maxKw)).map
          (fun c => (p.1, c))) := by
  rw [match_keywords_to_themes]
  apply List.filterMap_congr
  intro p hp
  by_cases hr : (themeMatchesRaw kws p.2).isEmpty <;> simp [hr]

/-- Looking up a catalog theme in the matcher output. -/
theorem alookup_match_keywords (maxKw : Nat) (kws : List (String × ℚ))
    {name : String} {seeds : List String} (hc : (name, seeds) ∈ theme_keywords) :
    alookup (match_keywords_to_themes maxKw kws) name =
      (if (themeMatchesRaw kws seeds).isEmpty then none
       else some ((sortDesc (themeMatchesRaw kws seeds)).take maxKw)) := by
  rw [match_keywords_eq_filterMap]
  exact alookup_filterMap_keyed theme_keywords
    (fun seeds => if (themeMatchesRaw kws seeds).isEmpty then none
      else some ((sortDesc (themeMatchesRaw kws seeds)).take maxKw))
    theme_keywords_nodup hc

/-!
## Claim C7
-/

/-- C7: for every keyword mapping given to `match_keywords_to_themes`,
every theme's matched-keyword list in the output has at most
`max_keywords_per_theme` entries and is sorted descending by score, and a
catalog theme is absent from the output exactly when it has zero matching
keywords. -/
theorem C7_matcher_truncation (maxKw : Nat) (kws : List (String × ℚ)) :
    (∀ name l, (name, l) ∈ match_keywords_to_themes maxKw kws →
        l.length ≤ maxKw ∧ l.Pairwise (fun a b => b.2 ≤ a.2))
  ∧ (∀ name seeds, (name, seeds) ∈ theme_keywords →
        (alookup (match_keywords_to_themes maxKw kws) name = none ↔
          themeMatchesRaw kws seeds = [])) := by
  constructor
  · intro name l hmem
    simp only [match_keywords_to_themes] at hmem
    rcases List.mem_filterMap.1 hmem with ⟨p, hp, hpl⟩
    by_cases hr : (themeMatchesRaw kws p.2).isEmpty
    · rw [if_pos hr] at hpl
      cases hpl
    · rw [if_neg hr] at hpl
      have hinj := Option.some.inj hpl
      have hl : (sortDesc (themeMatchesRaw kws p.2)).take maxKw = l :=
        congrArg Prod.snd hinj
      rw [← hl]
      constructor
      · rw [List.length_take]
        exact min_le_left _ _
      · exact (sortDesc_pairwise _).sublist (List.take_sublist _ _)
  · intro name seeds hc
    rw [alookup_match_keywords maxKw kws hc]
    by_cases hr : (themeMatchesRaw kws seeds).isEmpty
    · rw [if_pos hr]
      exact ⟨fun _ => List.isEmpty_iff.1 hr, fun _ => rfl⟩
    · rw [if_neg hr]
      constructor
      · intro hcontr
        cases hcontr
      · intro hcontr
        exact absurd (List.isEmpty_iff.2 hcontr) hr

/-- The seed keywords of "Account Access Problems". -/
def accountSeeds : List String := (alookup theme_keywords ("Account Access Problems")).getD []

/-- Witness for C7 at a concrete input: the mapping `{login: 1}` matches
only "Account Access Problems" with the single entry `("login", 1)`, and
"Security & Trust" (zero matches) is absent. -/
theorem C7_matcher_truncation_witness :
    (([(("login"), (1 : ℚ))] : List (String × ℚ)).length ≤ 10
      ∧ ([(("login"), (1 : ℚ))] : List (String × ℚ)).Pairwise (fun a b => b.2 ≤ a.2))
  ∧ (alookup (match_keywords_to_themes 10 [(("login"), (1 : ℚ))]) ("Security & Trust") = none ↔
      themeMatchesRaw [(("login"), (1 : ℚ))]
        ((alookup theme_keywords ("Security & Trust")).getD []) = []) :=
  ⟨(C7_matcher_truncation 10 [(("login"), (1 : ℚ))]).1 ("Account Access Problems")
      [(("login"), (1 : ℚ))] (by decide),
   (C7_matcher_truncation 10 [(("login"), (1 : ℚ))]).2 ("Security & Trust")
      ((alookup theme_keywords ("Security & Trust")).getD []) (by decide)⟩

/-!
## Claim C9
-/

/-- The extraction mapping `{password: 1, login: 1}` (this insertion
order). -/
def exampleKeywords9 : List (String × ℚ) := [(("password"), 1), (("login"), 1)]

/-- C9 counterexample: with equal scores and extraction order
`password, login`, the matcher emits `login` before `password` for
"Account Access Problems" — the collection loop iterates seed keywords
first (`login` is an earlier seed than `password`), so ties follow seed
order, not extraction order.  The claim predicts `password` first. -/
theorem C9_counterexample :
    alookup (match_keywords_to_themes 10 exampleKeywords9) ("Account Access Problems") =
      some [(("login"), (1 : ℚ)), (("password"), 1)]
  ∧ alookup (match_keywords_to_themes 10 exampleKeywords9) ("Account Access Problems") ≠
      some [(("password"), (1 : ℚ)), (("login"), 1)] := by
  constructor
  · decide
  · decide

/-- C9 as amended: the matcher's descending sort is stable with respect to
the *collected* match order (seed keywords in catalog order, and for each
seed the extracted keywords in extraction order), not with respect to raw
extraction order; each present theme's list is the stably sorted, truncated
collection. -/
theorem C9_stable_sort_amended (maxKw : Nat) (kws : List (String × ℚ)) (s : ℚ)
    {name : String} {seeds : List String} (hc : (name, seeds) ∈ theme_keywords)
    (hne : (themeMatchesRaw kws seeds).isEmpty = false) :
    alookup (match_keywords_to_themes maxKw kws) name =
      some ((sortDesc (themeMatchesRaw kws seeds)).take maxKw)
  ∧ (sortDesc (themeMatchesRaw kws seeds)).filter (fun p => p.2 == s) =
      (themeMatchesRaw kws seeds).filter (fun p => p.2 == s) := by
  refine ⟨?_, sortDesc_filter _ s⟩
  rw [alookup_match_keywords maxKw kws hc, if_neg (by simp [hne])]

/-- Witness for the amended C9 at the counterexample input. -/
theorem C9_stable_sort_amended_witness :
    alookup (match_keywords_to_themes 10 exampleKeywords9) ("Account Access Problems") =
      some ((sortDesc (themeMatchesRaw exampleKeywords9 accountSeeds)).take 10)
  ∧ (sortDesc (themeMatchesRaw exampleKeywords9 accountSeeds)).filter
        (fun p => p.2 == (1 : ℚ)) =
      (themeMatchesRaw exampleKeywords9 accountSeeds).filter (fun p => p.2 == (1 : ℚ)) :=
  C9_stable_sort_amended 10 exampleKeywords9 1 (by decide) (by decide)

/-!
## Claim C10
-/

/-- C10: the matcher appends one `(keyword, score)` pair per matching
`(seed, extracted)` pair.  With the mapping `{account: 5, login: 1}`, the
extracted keyword `account` matches both the seed `account` and the seed
`open account` of "Account Access Problems", so it appears twice in the
collected list, and with `max_keywords_per_theme = 2` the two duplicate
entries fill the truncated list, crowding out `login`. -/
theorem C10_duplicate_pairs :
    (themeMatchesRaw [(("account"), (5 : ℚ)), (("login"), 1)] accountSeeds).countP
        (fun p => p.1 == ("account")) = 2
  ∧ alookup (match_keywords_to_themes 2 [(("account"), (5 : ℚ)), (("login"), 1)])
        ("Account Access Problems") = some [(("account"), 5), (("account"), 5)] := by
  constructor
  · decide
  · decide

/-!
## Claim C8
-/

theorem mem_akeys_iff_alookup {α : Type} (m : List (String × α)) (k : String) :
    k ∈ akeys m ↔ (alookup m k).isSome := by
  induction m with
  | nil => simp [akeys, alookup]
  | cons p rest ih =>
    rw [akeys_cons, List.mem_cons]
    by_cases hp : (p.1 == k) = true
    · simp [alookup, hp, beq_iff_eq.1 hp]
    · rw [alookup, if_neg hp, ← ih]
      have : ¬ k = p.1 := fun hc => hp (beq_iff_eq.2 hc.symm)
      tauto

/-- C8: when both strategies run, the combined mapping (before the
minimum-frequency filter) is keyed by the union of the two strategies'
terms; a term in both gets the arithmetic mean of the two scores, a term in
exactly one keeps that score. -/
theorem C8_combination (T S : List (String × ℚ)) (hS : (akeys S).Nodup) (k : String) :
    alookup (combineBoth T S) k =
      (match alookup T k, alookup S k with
       | some a, some b => some ((a + b) / 2)
       | some a, none => some a
       | none, some b => some b
       | none, none => none)
  ∧ (k ∈ akeys (combineBoth T S) ↔ k ∈ akeys T ∨ k ∈ akeys S) := by
  have main : ∀ (T : List (String × ℚ)), alookup (combineBoth T S) k =
      (match alookup T k, alookup S k with
       | some a, some b => some ((a + b) / 2)
       | some a, none => some a
       | none, some b => some b
       | none, none => none) := by
    induction S with
    | nil =>
      intro T
      rw [combineBoth]
      simp only [List.foldl_nil, alookup]
      cases alookup T k <;> rfl
    | cons p rest ih =>
      intro T
      rw [akeys_cons, List.nodup_cons] at hS
      have hrest : alookup rest p.1 = none := alookup_eq_none_of_not_mem hS.1
      have step : combineBoth T (p :: rest) =
          combineBoth (match alookup T p.1 with
            | some v0 => dinsert T p.1 (qavg v0 p.2)
            | none => dinsert T p.1 p.2) rest := by
        rw [combineBoth, combineBoth, List.foldl_cons]
      rw [step, ih hS.2]
      by_cases hk : k = p.1
      · subst hk
        have hhead : alookup (p :: rest) p.1 = some p.2 := by
          simp only [alookup]
          rw [if_pos (beq_self_eq_true _)]
        rw [hhead, hrest]
        cases halook : alookup T p.1 with
        | none => simp [halook, alookup_dinsert_self]
        | some v0 => simp [halook, alookup_dinsert_self, qavg_eq]
      · have hhead : alookup (p :: rest) k = alookup rest k := by
          simp only [alookup]
          rw [if_neg (fun hc => hk (beq_iff_eq.1 hc).symm)]
        rw [hhead]
        cases halook : alookup T p.1 with
        | none => rw [alookup_dinsert_ne _ _ _ _ hk]
        | some v0 => rw [alookup_dinsert_ne _ _ _ _ hk]
  refine ⟨main T, ?_⟩
  rw [mem_akeys_iff_alookup, mem_akeys_iff_alookup, mem_akeys_iff_alookup, main T]
  cases alookup T k <;> cases alookup S k <;> simp

/-- Witness for C8: `T = {app: 1}`, `S = {app: 2, bug: 3}`; `app` (in both)
gets the mean, looked up at `k = "app"`. -/
theorem C8_combination_witness :
    alookup (combineBoth [(("app"), (1 : ℚ))] [(("app"), (2 : ℚ)), (("bug"), 3)]) ("app") =
      (match alookup [(("app"), (1 : ℚ))] ("app"),
             alookup [(("app"), (2 : ℚ)), (("bug"), 3)] ("app") with
       | some a, some b => some ((a + b) / 2)
       | some a, none => some a
       | none, some b => some b
       | none, none => none)
  ∧ (("app") ∈ akeys (combineBoth [(("app"), (1 : ℚ))] [(("app"), (2 : ℚ)), (("bug"), 3)]) ↔
      ("app") ∈ akeys [(("app"), (1 : ℚ))] ∨ ("app") ∈ akeys [(("app"), (2 : ℚ)), (("bug"), 3)]) :=
  C8_combination [(("app"), (1 : ℚ))] [(("app"), (2 : ℚ)), (("bug"), 3)] (by decide) ("app")

/-!
## Claim C4
-/

/-- C4: an exception in the TF-IDF strategy or in the clustering step is
caught locally: the strategy contributes the empty mapping, the clustering
contributes zero clusters, nothing propagates (the embedded functions are
total), and with `method='both'` a TF-IDF failure leaves exactly the spaCy
strategy's contribution (post-filter) as the result. -/
theorem C4_exception_swallowing (O : Oracles) (cfg : Config) (texts : List (Option String))
    (nArg : Option Nat)
    (htf : tfidfBody O texts = Except.error ())
    (hkm : O.kmeans (clusterRequestedK cfg nArg texts.length) texts = Except.error ()) :
    extract_keywords_tfidf O texts = []
  ∧ extract_keywords O cfg Method.both texts = extract_keywords O cfg Method.spacy texts
  ∧ cluster_themes O cfg nArg texts = [] := by
  have h1 : extract_keywords_tfidf O texts = [] := by
    rw [extract_keywords_tfidf]
    by_cases ht : texts.isEmpty
    · rw [if_pos ht]
    · rw [if_neg ht, htf]
  refine ⟨h1, ?_, ?_⟩
  · simp only [extract_keywords]
    rw [h1, combineBoth_nil _ (keysNodup_spacy O texts)]
  · rw [cluster_themes]
    by_cases h2 : texts.length < 2
    · rw [if_pos h2]
    · rw [if_neg h2]
      by_cases hnn : texts.any (fun t => t.isNone) = true
      · rw [if_pos hnn]
      · rw [if_neg hnn]
        by_cases hv : (vocabCluster (texts.filterMap id)).isEmpty = true
        · rw [if_pos hv]
        · rw [if_neg hv, hkm]

/-- Oracles for a fully degenerate run: TF-IDF scores never consulted,
spaCy unavailable, K-means raising. -/
def failingOracles : Oracles :=
  ⟨fun _ => [], none, fun _ _ => Except.error ()⟩

/-- Witness for C4 at a concrete input (two texts sharing no term, so the
TF-IDF body raises; the K-means oracle raises). -/
theorem C4_exception_swallowing_witness :
    extract_keywords_tfidf failingOracles [some ("alpha"), some ("beta")] = []
  ∧ extract_keywords failingOracles {} Method.both [some ("alpha"), some ("beta")] =
      extract_keywords failingOracles {} Method.spacy [some ("alpha"), some ("beta")]
  ∧ cluster_themes failingOracles {} none [some ("alpha"), some ("beta")] = [] :=
  C4_exception_swallowing failingOracles {} [some ("alpha"), some ("beta")] none rfl rfl

/-!
## Claim C5
-/

/-- C5 as amended: whenever the clustering step actually runs, the centroid
method is invoked with `k = min(n_themes, num_texts)` — independent of how
many catalog themes matched — and partitions the texts by the labels it
returns; only afterwards does `identify_themes` take the first
`n_themes - matched_count` clusters. -/
theorem C5_cluster_count_amended (O : Oracles) (cfg : Config) (texts : List (Option String))
    (labels : List Nat)
    (h2 : ¬ texts.length < 2)
    (hnn : texts.any (fun t => t.isNone) = false)
    (hv : (vocabCluster (texts.filterMap id)).isEmpty = false)
    (hk : O.kmeans (min cfg.nThemes texts.length) texts = Except.ok labels) :
    clusterRequestedK cfg (some cfg.nThemes) texts.length = min cfg.nThemes texts.length
  ∧ cluster_themes O cfg (some cfg.nThemes) texts = groupByLabels (labels.zip texts) := by
  have hreq : clusterRequestedK cfg (some cfg.nThemes) texts.length =
      min cfg.nThemes texts.length := by
    rw [clusterRequestedK]
    by_cases h0 : cfg.nThemes = 0
    · simp [h0]
    · simp only [if_neg h0]
  refine ⟨hreq, ?_⟩
  rw [cluster_themes, if_neg h2, if_neg (by simp [hnn]), if_neg (by simp [hv]), hreq, hk]

/-- Ten texts: nine are `"login"`, one is `"signup signup"`.  The exact
mean TF-IDF score of the sole surviving term `login` is `9/10` (nine
one-term documents have L2-normalised weight `1`, the tenth row is zero),
so the score oracle is instantiated with that exact value; the label
oracle realises every requested cluster (`i % k`). -/
def texts10 : List (Option String) :=
  List.replicate 9 (some ("login")) ++ [some ("signup signup")]

/-- Oracles for the `texts10` run. -/
def loginOracles : Oracles :=
  ⟨fun _ => [(("login"), mkRat 9 10)], none,
   fun k txts => Except.ok ((List.range txts.length).map (fun i => i % k))⟩

/-- C5 counterexample: on `texts10` exactly one catalog theme matches
(`login` → "Account Access Problems") and ten texts are available, so the
claim demands a partition into `min(5 - 1, 10) = 4` clusters; the code
requests `min(n_themes, num_texts) = 5` clusters and the partition has 5
parts (of which `identify_themes` then uses only 4, for 5 themes total). -/
theorem C5_counterexample :
    (catalogThemes loginOracles {} texts10).length = 1
  ∧ 2 ≤ texts10.length
  ∧ (cluster_themes loginOracles {} (some 5) texts10).length = 5
  ∧ (cluster_themes loginOracles {} (some 5) texts10).length ≠
      min (5 - (catalogThemes loginOracles {} texts10).length) texts10.length
  ∧ (identify_themes loginOracles {} texts10).length = 5 := by
  refine ⟨by decide, by decide, by decide, by decide, by decide⟩

/-- Witness for the amended C5 on the `texts10` run. -/
theorem C5_cluster_count_amended_witness :
    clusterRequestedK {} (some (Config.nThemes {})) texts10.length =
      min (Config.nThemes {}) texts10.length
  ∧ cluster_themes loginOracles {} (some (Config.nThemes {})) texts10 =
      groupByLabels (((List.range texts10.length).map (fun i => i % 5)).zip texts10) :=
  C5_cluster_count_amended loginOracles {} texts10
    ((List.range texts10.length).map (fun i => i % 5))
    (by decide) (by decide) (by decide) rfl

/-!
## Claim C6
-/

/-- Two texts sharing the term `login`, so the extraction vectorizer
prunes everything (`max_df` caps the document count at `int(0.95*2) = 1`)
while the clustering vectorizer keeps `login`; the label oracle assigns
the first text to cluster 1 and the second to cluster 0 (a label
permutation K-means is free to produce). -/
def texts2 : List (Option String) := [some ("login alpha"), some ("login beta")]

/-- Oracles for the `texts2` run. -/
def swapOracles : Oracles :=
  ⟨fun _ => [], none, fun _ _ => Except.ok [1, 0]⟩

/-- C6 counterexample: the first cluster theme added is named
"Cluster Theme 2" (its internal label is 1) and the second "Cluster
Theme 1" — the name comes from `cluster_id + 1`, not from the 1-based slot
index among the added themes as the claim states. -/
theorem C6_counterexample :
    (identify_themes swapOracles {} texts2).map (fun p => p.1) =
      [("Cluster Theme 2"), ("Cluster Theme 1")]
  ∧ (identify_themes swapOracles {} texts2).map (fun p => p.1) ≠
      [("Cluster Theme 1"), ("Cluster Theme 2")] := by
  refine ⟨by decide, by decide⟩

/-- C6 as amended: each supplemented theme is named
`"Cluster Theme " ++ toString (label + 1)` from its internal cluster
label, carries at most 5 keywords, and those keywords are the top-5 of a
TF-IDF-only extraction over just that cluster's texts; the supplemented
themes are appended after the catalog themes in cluster order. -/
theorem C6_cluster_theme_shape (O : Oracles) (cfg : Config) (texts : List (Option String))
    (hne : texts.isEmpty = false)
    (hlt : (catalogThemes O cfg texts).length < cfg.nThemes)
    (hcl : (cluster_themes O cfg (some cfg.nThemes) texts).isEmpty = false)
    (hfresh : (akeys (catalogThemes O cfg texts ++
        ((cluster_themes O cfg (some cfg.nThemes) texts).take
          (cfg.nThemes - (catalogThemes O cfg texts).length)).map
          (mkClusterTheme O cfg))).Nodup) :
    identify_themes O cfg texts =
      catalogThemes O cfg texts ++
        ((cluster_themes O cfg (some cfg.nThemes) texts).take
          (cfg.nThemes - (catalogThemes O cfg texts).length)).map (mkClusterTheme O cfg)
  ∧ ∀ q ∈ (cluster_themes O cfg (some cfg.nThemes) texts).take
        (cfg.nThemes - (catalogThemes O cfg texts).length),
      (mkClusterTheme O cfg q).1 = ("Cluster Theme ") ++ toString (q.1 + 1)
    ∧ (mkClusterTheme O cfg q).2.keywords.length ≤ 5
    ∧ (mkClusterTheme O cfg q).2.keywords =
        ((sortDesc (extract_keywords O cfg Method.tfidf q.2)).take 5).map (fun p => p.1) := by
  constructor
  · simp only [identify_themes]
    rw [if_neg (by simp [hne]), if_pos (by exact ⟨hlt, by simp [hcl]⟩)]
    exact foldl_dinsert_fresh (mkClusterTheme O cfg) _ _ hfresh
  · intro q hq
    refine ⟨rfl, ?_, rfl⟩
    simp only [mkClusterTheme]
    rw [List.length_map, List.length_take]
    exact min_le_left _ _

/-- Witness for the amended C6 on the `texts2` run. -/
theorem C6_cluster_theme_shape_witness :
    identify_themes swapOracles {} texts2 =
      catalogThemes swapOracles {} texts2 ++
        ((cluster_themes swapOracles {} (some (Config.nThemes {})) texts2).take
          ((Config.nThemes {}) - (catalogThemes swapOracles {} texts2).length)).map
          (mkClusterTheme swapOracles {})
  ∧ ∀ q ∈ (cluster_themes swapOracles {} (some (Config.nThemes {})) texts2).take
        ((Config.nThemes {}) - (catalogThemes swapOracles {} texts2).length),
      (mkClusterTheme swapOracles {} q).1 = ("Cluster Theme ") ++ toString (q.1 + 1)
    ∧ (mkClusterTheme swapOracles {} q).2.keywords.length ≤ 5
    ∧ (mkClusterTheme swapOracles {} q).2.keywords =
        ((sortDesc (extract_keywords swapOracles {} Method.tfidf q.2)).take 5).map
          (fun p => p.1) :=
  C6_cluster_theme_shape swapOracles {} texts2 (by decide) (by decide) (by decide) (by decide)

/-!
## Claim C1
-/

/-- C1 counterexample: a review whose text is the empty string gets
`matched_themes = []` from `classify_review_theme` (the guard returns `[]`,
not `['Uncategorized']`), so the `if matched_themes:` in
`analyze_dataframe` never writes the columns and both stay `None` —
not "Uncategorized" as claimed. -/
theorem C1_counterexample :
    ((analyze_dataframe (identify_themes failingOracles {}) [⟨some (""), ("CBE")⟩]).1.map
        (fun o => o.primaryTheme) = [none])
  ∧ ((analyze_dataframe (identify_themes failingOracles {}) [⟨some (""), ("CBE")⟩]).1.map
        (fun o => o.identifiedThemes) = [none]) := by
  refine ⟨by decide, by decide⟩

/-- Field-level characterisation of one classified row. -/
theorem classifyRow_cases (themes : List (String × ThemeInfo)) (text : Option String)
    (bank : String) :
    ((classifyRow themes ⟨text, bank⟩).primaryTheme.isSome ↔
      ∃ t, text = some t ∧ t.isEmpty = false ∧ themes.isEmpty = false)
  ∧ ((classifyRow themes ⟨text, bank⟩).identifiedThemes.isSome ↔
      (classifyRow themes ⟨text, bank⟩).primaryTheme.isSome)
  ∧ (∀ t, text = some t → t.isEmpty = false → themes.isEmpty = false →
      (∀ p ∈ themes, p.2.keywords.countP (fun kw => isSub (strLower kw) (strLower t)) = 0) →
      (classifyRow themes ⟨text, bank⟩).primaryTheme = some ("Uncategorized")
        ∧ (classifyRow themes ⟨text, bank⟩).identifiedThemes = some ("Uncategorized")) := by
  cases text with
  | none =>
    refine ⟨?_, ?_, ?_⟩
    · simp [classifyRow, classify_review_theme]
    · simp [classifyRow, classify_review_theme]
    · intro t ht
      cases ht
  | some t =>
    by_cases hemp : t.isEmpty = true
    · refine ⟨?_, ?_, ?_⟩
      · simp [classifyRow, classify_review_theme, hemp]
      · simp [classifyRow, classify_review_theme, hemp]
      · intro t' ht' hfalse
        have htt : t' = t := (Option.some.inj ht').symm
        rw [htt, hemp] at hfalse
        cases hfalse
    · by_cases hth : themes.isEmpty = true
      · refine ⟨?_, ?_, ?_⟩
        · simp [classifyRow, classify_review_theme, hemp, hth]
        · simp [classifyRow, classify_review_theme, hemp, hth]
        · intro t' ht' hfalse hthemes
          rw [hthemes] at hth
          cases hth
      · have hclass : classify_review_theme (some t) themes =
            (if (themes.filterMap (fun p =>
                if 0 < p.2.keywords.countP (fun kw => isSub (strLower kw) (strLower t))
                then some p.1 else none)).isEmpty
             then [("Uncategorized")]
             else themes.filterMap (fun p =>
                if 0 < p.2.keywords.countP (fun kw => isSub (strLower kw) (strLower t))
                then some p.1 else none)) := by
          simp only [classify_review_theme]
          rw [if_neg (by simp [hemp, hth])]
        have hmtne : classify_review_theme (some t) themes ≠ [] := by
          rw [hclass]
          by_cases hm : (themes.filterMap (fun p =>
              if 0 < p.2.keywords.countP (fun kw => isSub (strLower kw) (strLower t))
              then some p.1 else none)).isEmpty = true
          · rw [if_pos hm]
            simp
          · rw [if_neg hm]
            exact fun hc => hm (by rw [hc]; rfl)
        have hmtfalse : (classify_review_theme (some t) themes).isEmpty = false := by
          cases hl : classify_review_theme (some t) themes with
          | nil => exact absurd hl hmtne
          | cons a as => rfl
        have hprim : (classifyRow themes ⟨some t, bank⟩).primaryTheme =
            (classify_review_theme (some t) themes).head? := by
          simp only [classifyRow]
          rw [if_neg (by simp [hmtfalse])]
        have hident : (classifyRow themes ⟨some t, bank⟩).identifiedThemes =
            some (String.intercalate ("; ") (classify_review_theme (some t) themes)) := by
          simp only [classifyRow]
          rw [if_neg (by simp [hmtfalse])]
        have hheadsome : ((classify_review_theme (some t) themes).head?).isSome = true := by
          cases hl : classify_review_theme (some t) themes with
          | nil => exact absurd hl hmtne
          | cons a as => rfl
        refine ⟨?_, ?_, ?_⟩
        · rw [hprim]
          constructor
          · intro _
            exact ⟨t, rfl, by simp [hemp], by simp [hth]⟩
          · intro _
            exact hheadsome
        · rw [hprim, hident]
          simp [hheadsome]
        · intro t' ht' hfalse hthfalse hcount
          have htt : t' = t := (Option.some.inj ht').symm
          subst htt
          have hm0 : themes.filterMap (fun p =>
              if 0 < p.2.keywords.countP (fun kw => isSub (strLower kw) (strLower t'))
              then some p.1 else none) = [] := by
            rw [List.filterMap_eq_nil_iff]
            intro p hp
            rw [if_neg]
            rw [hcount p hp]
            exact lt_irrefl 0
          have hmt : classify_review_theme (some t') themes = [("Uncategorized")] := by
            rw [hclass, hm0]
            rfl
          rw [hprim, hident, hmt]
          exact ⟨rfl, rfl⟩

/-- C1 as amended: after `analyze_dataframe`, a row's two theme columns are
non-null exactly when its text is a non-empty string *and* its group's
theme mapping is non-empty; in that case, when no theme keyword occurs in
the text, both columns hold "Uncategorized".  Rows with missing/empty text
or an empty group theme mapping keep `None` in both columns. -/
theorem C1_labeling_amended (identify : List (Option String) → List (String × ThemeInfo))
    (rows : List Row) (o : ORow) (ho : o ∈ (analyze_dataframe identify rows).1) :
    (o.primaryTheme.isSome ↔
      (∃ t, o.text = some t ∧ t.isEmpty = false
        ∧ (identify (groupTexts rows o.bank)).isEmpty = false))
  ∧ (o.identifiedThemes.isSome ↔ o.primaryTheme.isSome)
  ∧ (∀ t, o.text = some t → t.isEmpty = false →
      (identify (groupTexts rows o.bank)).isEmpty = false →
      (∀ p ∈ identify (groupTexts rows o.bank),
        p.2.keywords.countP (fun kw => isSub (strLower kw) (strLower t)) = 0) →
      o.primaryTheme = some ("Uncategorized")
        ∧ o.identifiedThemes = some ("Uncategorized")) := by
  have ho2 : o ∈ rows.map (fun r => classifyRow (identify (groupTexts rows r.bank)) r) := ho
  rcases List.mem_map.1 ho2 with ⟨r, hr, rfl⟩
  rcases r with ⟨text, bank⟩
  exact classifyRow_cases (identify (groupTexts rows bank)) text bank

/-- A per-group identification oracle with one theme whose only keyword is
`zzz`. -/
def oneThemeIdentify : List (Option String) → List (String × ThemeInfo) :=
  fun _ => [(("T"), ⟨[("zzz")], [], 0, ("")⟩)]

/-- Witness for the amended C1: the text "hello" matches no keyword of the
single theme, so both columns read "Uncategorized". -/
theorem C1_labeling_amended_witness :
    (⟨some ("hello"), ("A"), some ("Uncategorized"), some ("Uncategorized")⟩ : ORow).primaryTheme =
      some ("Uncategorized")
  ∧ (⟨some ("hello"), ("A"), some ("Uncategorized"),
      some ("Uncategorized")⟩ : ORow).identifiedThemes = some ("Uncategorized") :=
  (C1_labeling_amended oneThemeIdentify [⟨some ("hello"), ("A")⟩]
      ⟨some ("hello"), ("A"), some ("Uncategorized"), some ("Uncategorized")⟩
      (by decide)).2.2 ("hello") rfl (by decide) (by decide) (by decide)

/-!
## Claim C2
-/

/-- C2: for every group and every theme in the finalized per-group mapping
returned by `analyze_dataframe` — catalog-matched and cluster-supplemented
alike, including themes no review selected — `review_count` equals the
number of rows of that group whose `primary_theme` is the theme's name. -/
theorem C2_review_counts (identify : List (Option String) → List (String × ThemeInfo))
    (rows : List Row) (b : String) (bthemes : List (String × ThemeInfo))
    (name : String) (info : ThemeInfo)
    (hb : (b, bthemes) ∈ (analyze_dataframe identify rows).2)
    (hm : (name, info) ∈ bthemes) :
    info.reviewCount = (analyze_dataframe identify rows).1.countP
      (fun o => o.bank == b && o.primaryTheme == some name) := by
  have hb2 : (b, bthemes) ∈ (uniqFirst (rows.map (fun r => r.bank))).map (fun b =>
      (b, (identify (groupTexts rows b)).map (fun p =>
        (p.1, setCount p.2 ((analyze_dataframe identify rows).1.countP
          (fun o => o.bank == b && o.primaryTheme == some p.1)))))) := hb
  rcases List.mem_map.1 hb2 with ⟨b', hb', hbeq⟩
  have hbb : b' = b := congrArg Prod.fst hbeq
  subst hbb
  have hth : bthemes = (identify (groupTexts rows b')).map (fun p =>
      (p.1, setCount p.2 ((analyze_dataframe identify rows).1.countP
        (fun o => o.bank == b' && o.primaryTheme == some p.1)))) :=
    (congrArg Prod.snd hbeq).symm
  rw [hth] at hm
  rcases List.mem_map.1 hm with ⟨p, hp, hpeq⟩
  have hname : p.1 = name := congrArg Prod.fst hpeq
  have hinfo : info = setCount p.2 ((analyze_dataframe identify rows).1.countP
      (fun o => o.bank == b' && o.primaryTheme == some p.1)) :=
    (congrArg Prod.snd hpeq).symm
  rw [hinfo, hname]
  rfl

/-- A per-group identification oracle with one theme `T` keyed on the
keyword `app` (stale initial `review_count` of 7, to be recomputed). -/
def appThemeIdentify : List (Option String) → List (String × ThemeInfo) :=
  fun _ => [(("T"), ⟨[("app")], [], 7, ("")⟩)]

/-- Witness for C2 on a concrete two-row frame: one review selects theme
`T` as primary, the other is uncategorised, so the recomputed
`review_count` is 1. -/
theorem C2_review_counts_witness :
    (⟨[("app")], [], 1, ("")⟩ : ThemeInfo).reviewCount =
      (analyze_dataframe appThemeIdentify
        [⟨some ("app is good"), ("A")⟩, ⟨some ("nothing here"), ("A")⟩]).1.countP
        (fun o => o.bank == ("A") && o.primaryTheme == some ("T"))  :=
  C2_review_counts appThemeIdentify
    [⟨some ("app is good"), ("A")⟩, ⟨some ("nothing here"), ("A")⟩]
    ("A") [(("T"), ⟨[("app")], [], 1, ("")⟩)] ("T") ⟨[("app")], [], 1, ("")⟩
    (by decide) (by decide)

/-!
## Claim C3
-/

theorem le_sum_of_mem (l : List (String × Nat)) (p : String × Nat) (hp : p ∈ l) :
    p.2 ≤ (l.map (fun q => q.2)).sum := by
  induction l with
  | nil => cases hp
  | cons q rest ih =>
    rw [List.map_cons, List.sum_cons]
    rcases List.mem_cons.1 hp with hp | hp
    · rw [hp]
      exact Nat.le_add_right _ _
    · exact le_trans (ih hp) (Nat.le_add_left _ _)

theorem lt_sum_of_mem_two (l : List (String × Nat)) (p : String × Nat) (hp : p ∈ l)
    (hpos : ∀ q ∈ l, 1 ≤ q.2) (hlen : 2 ≤ l.length) :
    p.2 < (l.map (fun q => q.2)).sum := by
  cases l with
  | nil => cases hp
  | cons q rest =>
    rw [List.map_cons, List.sum_cons]
    rcases List.mem_cons.1 hp with hpq | hpq
    · cases rest with
      | nil => simp at hlen
      | cons r rs =>
        have h1 : 1 ≤ (List.map (fun q => q.2) (r :: rs)).sum := by
          rw [List.map_cons, List.sum_cons]
          exact le_trans (hpos r (by simp)) (Nat.le_add_right _ _)
        rw [hpq]
        omega
    · have h1 : p.2 ≤ (rest.map (fun q => q.2)).sum := le_sum_of_mem rest p hpq
      have h2 : 1 ≤ q.2 := hpos q (by simp)
      omega

theorem qdiv_lt_one (c total : Nat) (h : c < total) : qdiv c total < 1 := by
  rw [qdiv_eq]
  rw [div_lt_one (by exact_mod_cast Nat.lt_of_le_of_lt (Nat.zero_le c) h)]
  exact_mod_cast h

theorem themeMatchesRaw_nil (seeds : List String) : themeMatchesRaw [] seeds = [] := by
  simp [themeMatchesRaw, lowerDict]

theorem match_keywords_nil (maxKw : Nat) : match_keywords_to_themes maxKw [] = [] := by
  simp [match_keywords_to_themes, themeMatchesRaw_nil]

theorem catalogThemes_of_keywords_nil (O : Oracles) (cfg : Config)
    (texts : List (Option String))
    (h : extract_keywords O cfg Method.both texts = []) :
    catalogThemes O cfg texts = [] := by
  rw [catalogThemes, h, match_keywords_nil]
  rfl

/-- When the TF-IDF body raises and the frequency threshold is at least 1,
the combined extraction is empty as soon as spaCy's counter does not
consist of exactly one distinct key: every normalised score `c/total` is
then strictly below 1. -/
theorem extract_both_empty (O : Oracles) (cfg : Config) (texts : List (Option String))
    (htf : tfidfBody O texts = Except.error ())
    (hthr : 1 ≤ qdiv cfg.minKeywordFreq texts.length)
    (hsp : ∀ items, O.spacyItems = some items → (spacyCounter items texts).length ≠ 1) :
    extract_keywords O cfg Method.both texts = [] := by
  have h1 : extract_keywords_tfidf O texts = [] := by
    rw [extract_keywords_tfidf]
    by_cases ht : texts.isEmpty
    · rw [if_pos ht]
    · rw [if_neg ht, htf]
  simp only [extract_keywords]
  rw [h1, combineBoth_nil _ (keysNodup_spacy O texts)]
  by_cases ht : texts.isEmpty
  · rw [if_pos ht]
  · rw [if_neg ht]
    rw [List.filter_eq_nil_iff]
    intro p hp
    rw [extract_keywords_spacy] at hp
    cases hspi : O.spacyItems with
    | none =>
      simp only [hspi] at hp
      cases hp
    | some items =>
      simp only [hspi, if_neg ht] at hp
      by_cases htot : 0 < ((spacyCounter items texts).map (fun q => q.2)).sum
      · rw [if_pos htot] at hp
        rcases List.mem_map.1 hp with ⟨q, hq, rfl⟩
        have hlen : (spacyCounter items texts).length ≠ 1 := hsp items hspi
        have hpos := (spacyCounter_invariants items texts).2
        have hlen0 : (spacyCounter items texts).length ≠ 0 := by
          intro hc
          rw [List.length_eq_zero] at hc
          rw [hc] at htot
          simp at htot
        have hlen2 : 2 ≤ (spacyCounter items texts).length := by omega
        have hlt : q.2 < ((spacyCounter items texts).map (fun q => q.2)).sum :=
          lt_sum_of_mem_two (spacyCounter items texts) q hq hpos hlen2
        have hscore : qdiv q.2 (((spacyCounter items texts).map (fun q => q.2)).sum) < 1 :=
          qdiv_lt_one _ _ hlt
        simp only [decide_eq_true_eq]
        intro hcontr
        exact absurd (lt_of_lt_of_le hscore hthr) (not_lt.2 hcontr)
      · rw [if_neg htot] at hp
        cases hp

/-- The three spec-example texts. -/
def texts3 : List (Option String) :=
  [some ("app keeps crashing after update"),
   some ("login otp never arrives, cannot access account"),
   some ("great simple design, love the UI")]

/-- The spec-example texts as a one-bank review frame. -/
def rows3 : List Row :=
  [⟨some ("app keeps crashing after update"), ("CBE")⟩,
   ⟨some ("login otp never arrives, cannot access account"), ("CBE")⟩,
   ⟨some ("great simple design, love the UI"), ("CBE")⟩]

/-- C3 counterexample: running the pipeline (spaCy unavailable) on the
three example texts leaves every row's `primary_theme` as `None` — no term
occurs in two documents, so the TF-IDF vectorizer raises, no keyword
survives, the theme mapping is empty, and classification never writes the
columns.  The claimed assignment to the three catalog themes does not
happen. -/
theorem C3_counterexample :
    ((analyze_dataframe (identify_themes failingOracles {}) rows3).1.map
        (fun o => o.primaryTheme) = [none, none, none])
  ∧ ((analyze_dataframe (identify_themes failingOracles {}) rows3).1.map
        (fun o => o.primaryTheme) ≠
      [some ("App Performance & Stability"), some ("Account Access Problems"),
       some ("User Interface & Experience")]) := by
  refine ⟨by decide, by decide⟩

/-- C3 as amended: on the three example texts the extraction vocabulary is
pruned empty (no term reaches document frequency 2), so — for every
K-means/TF-IDF oracle behaviour, and whenever spaCy is unavailable or its
counter holds anything other than exactly one distinct key (its normalised
scores then all fall below the `3/3 = 1` threshold) — the group's theme
mapping is empty and all three reviews keep `None` in both columns. -/
theorem C3_pipeline_amended (O : Oracles)
    (hsp : ∀ items, O.spacyItems = some items → (spacyCounter items texts3).length ≠ 1) :
    ((analyze_dataframe (identify_themes O {}) rows3).1.map (fun o => o.primaryTheme) =
      [none, none, none])
  ∧ ((analyze_dataframe (identify_themes O {}) rows3).1.map (fun o => o.identifiedThemes) =
      [none, none, none])
  ∧ (analyze_dataframe (identify_themes O {}) rows3).2 = [(("CBE"), [])] := by
  have htf : tfidfBody O texts3 = Except.error () := by
    rw [tfidfBody, if_neg (by decide), if_pos (by decide)]
  have hkw : extract_keywords O {} Method.both texts3 = [] :=
    extract_both_empty O {} texts3 htf (by decide) hsp
  have hbase : catalogThemes O {} texts3 = [] :=
    catalogThemes_of_keywords_nil O {} texts3 hkw
  have hclus : cluster_themes O {} (some (Config.nThemes {})) texts3 = [] := by
    rw [cluster_themes, if_neg (by decide), if_neg (by decide), if_pos (by decide)]
  have hident : identify_themes O {} texts3 = [] := by
    simp only [identify_themes, hbase, hclus]
    rw [if_neg (by decide), if_neg (by simp)]
  have hgt : groupTexts rows3 ("CBE") = texts3 := by decide
  have hall : ∀ r ∈ rows3, identify_themes O {} (groupTexts rows3 r.bank) = [] := by
    intro r hr
    have hbank : r.bank = ("CBE") := by
      fin_cases hr <;> rfl
    rw [hbank, hgt, hident]
  have hrowsnone : ∀ r ∈ rows3,
      classifyRow (identify_themes O {} (groupTexts rows3 r.bank)) r =
        (⟨r.text, r.bank, none, none⟩ : ORow) := by
    intro r hr
    rw [hall r hr]
    rcases r with ⟨text, bank⟩
    cases text <;> simp [classifyRow, classify_review_theme]
  refine ⟨?_, ?_, ?_⟩
  · show ((rows3.map (fun r =>
        classifyRow (identify_themes O {} (groupTexts rows3 r.bank)) r)).map
        (fun o => o.primaryTheme)) = [none, none, none]
    rw [List.map_map]
    rw [List.map_congr_left (fun r hr => by
      show (fun o => o.primaryTheme) (classifyRow (identify_themes O {} (groupTexts rows3 r.bank)) r) = none
      rw [hrowsnone r hr])]
    rfl
  · show ((rows3.map (fun r =>
        classifyRow (identify_themes O {} (groupTexts rows3 r.bank)) r)).map
        (fun o => o.identifiedThemes)) = [none, none, none]
    rw [List.map_map]
    rw [List.map_congr_left (fun r hr => by
      show (fun o => o.identifiedThemes) (classifyRow (identify_themes O {} (groupTexts rows3 r.bank)) r) = none
      rw [hrowsnone r hr])]
    rfl
  · show (uniqFirst (rows3.map (fun r => r.bank))).map (fun b =>
        (b, (identify_themes O {} (groupTexts rows3 b)).map (fun p =>
          (p.1, setCount p.2 ((analyze_dataframe (identify_themes O {}) rows3).1.countP
            (fun o => o.bank == b && o.primaryTheme == some p.1)))))) = [(("CBE"), [])]
    rw [show uniqFirst (rows3.map (fun r => r.bank)) = [("CBE")] from by decide]
    rw [List.map_cons, List.map_nil, hgt, hident]
    rfl

/-- Witness for the amended C3: spaCy unavailable. -/
theorem C3_pipeline_amended_witness :
    ((analyze_dataframe (identify_themes failingOracles {}) rows3).1.map
        (fun o => o.primaryTheme) = [none, none, none])
  ∧ ((analyze_dataframe (identify_themes failingOracles {}) rows3).1.map
        (fun o => o.identifiedThemes) = [none, none, none])
  ∧ (analyze_dataframe (identify_themes failingOracles {}) rows3).2 = [(("CBE"), [])] :=
  C3_pipeline_amended failingOracles (fun _ h => Option.noConfusion h)

end ThematicAnalyzer
